import Mathlib

/-
Verification of the order-placement and fulfillment pipeline of the
engineering_platform repository (Django app `core`).

The embedding below translates the relevant rows and request handlers of
`core/models.py`, `core/forms.py` and `core/views.py` into pure Lean
functions.  Database tables become association lists keyed by primary key;
`transaction.atomic` blocks become `Except` results (an error leaves the
state untouched, matching rollback); `timezone.now()` reads become explicit
integer timestamp parameters, one per call site; `DecimalField` money
values become integers in cents (decimal multiplication by an integer
count is exact).
-/

set_option linter.unusedVariables false

namespace EngineeringPlatform

/-- Order status values, from `Order.STATUS_CHOICES` in core/models.py. -/
inductive OrderStatus
  | pending
  | confirmed
  | dispatched
  | delivered
  | cancelled
deriving DecidableEq, Repr

/-- Material row (core/models.py `Material`): `unit_price` is a 2-decimal
`DecimalField` modelled in cents, `stock_level` a `PositiveIntegerField`
modelled as `Int` together with the non-negativity invariant `StockNonneg`,
`supplier` the owning `SupplierProfile` key, `is_active` the active flag. -/
structure Material where
  supplier : Nat
  unit_price : Int
  stock_level : Int
  is_active : Bool
deriving DecidableEq, Repr

/-- Order row (core/models.py `Order`): `engineer` is the buying profile's
key, `supplier` and `material` foreign keys, `quantity` a
`PositiveIntegerField` with `MinValueValidator(1)` (invariant `QtyPos`),
`total_price` in cents, `status` the lifecycle state. -/
structure Order where
  engineer : Nat
  supplier : Nat
  material : Nat
  quantity : Int
  total_price : Int
  status : OrderStatus
deriving DecidableEq, Repr

/-- Delivery row (core/models.py `Delivery`): one-to-one `order` key,
nullable `delivery_agent` profile key, nullable timestamps
`dispatched_at` / `delivered_at`, `delivery_location`, and the
append-only `notes` text. -/
structure Delivery where
  order : Nat
  delivery_agent : Option Nat
  dispatched_at : Option Int
  delivered_at : Option Int
  delivery_location : String
  notes : String
deriving DecidableEq, Repr

/-- Persistent state: the three tables the pipeline mutates, plus the two
read-only inputs of the delivery balancer — `agents`, the ids of active
profiles with role `delivery` in queryset enumeration order
(`Profile.objects.filter(role="delivery", user__is_active=True)`), and
`addresses`, the supplier-profile address book used for the
delivery-location fallback chain. -/
structure State where
  materials : List (Nat × Material)
  orders : List (Nat × Order)
  deliveries : List (Nat × Delivery)
  agents : List Nat
  addresses : List (Nat × String)
deriving DecidableEq, Repr

/-- Primary-key lookup in a table (Django `Model.objects.get(pk=k)` /
`filter(pk=k).first()`): the first row with the key. -/
def lookupTable {α : Type} (t : List (Nat × α)) (k : Nat) : Option α :=
  match t with
  | [] => none
  | e :: rest => if e.1 = k then some e.2 else lookupTable rest k

/-- Persisting an updated row (`obj.save()`): replace the row with key
`k` by the new value. -/
def updateTable {α : Type} (t : List (Nat × α)) (k : Nat) (v : α) : List (Nat × α) :=
  match t with
  | [] => []
  | e :: rest => (if e.1 = k then (k, v) else e) :: updateTable rest k v

/-- State visible after a request: an `Except.error` outcome corresponds
to `transaction.atomic` rolling back (or the handler bailing out before
any write), so the prior state persists. -/
def settle {ε : Type} (st : State) : Except ε State → State
  | Except.ok s => s
  | Except.error _ => st

/-- Active load of an agent: its deliveries with `delivered_at` unset
(views.py `assign_delivery_agent`, the `counts_qs` aggregation, and
spec glossary "Active load"). -/
def activeLoad (st : State) (agent : Nat) : Nat :=
  (st.deliveries.filter
    (fun e => e.2.delivery_agent == some agent && e.2.delivered_at == none)).length

/-- Agent selection loop of `assign_delivery_agent` (views.py lines
136-143): fold over the agent queryset keeping the current minimum,
replacing it only on a strictly smaller count — so the first agent
attaining the minimum load wins ties. -/
def selectAgent (agents : List Nat) (load : Nat → Nat) : Option Nat :=
  agents.foldl
    (fun sel a =>
      match sel with
      | none => some a
      | some b => if load a < load b then some a else some b)
    none

/-- Delivery-location fallback of `assign_delivery_agent` (views.py lines
148-156): `Order` has no `delivery_location` or `shipping_address`
attribute (core/models.py), so both `hasattr` probes fail and the
location falls through to the supplier profile's `address`, defaulting
to the empty string. -/
def deliveryLocation (st : State) (ord : Order) : String :=
  match lookupTable st.addresses ord.supplier with
  | some s => s
  | none => ""

/-- `assign_delivery_agent(order)` (views.py lines 103-168), with `did`
the fresh primary key the database would give the created row: return
unchanged if a Delivery already exists for the order (idempotency guard);
return unchanged when no active delivery agent exists; otherwise create a
Delivery assigned to the least-loaded agent. -/
def assign_delivery_agent (st : State) (oid did : Nat) : State :=
  match st.deliveries.find? (fun e => e.2.order == oid) with
  | some _ => st
  | none =>
    match selectAgent st.agents (activeLoad st) with
    | none => st
    | some sel =>
      match lookupTable st.orders oid with
      | none => st
      | some ord =>
        { st with deliveries :=
            (did, ⟨oid, some sel, none, none, deliveryLocation st ord, ""⟩) :: st.deliveries }

/-- Failure outcomes of `place_order` (views.py lines 392-447):
`notFound` for a missing or inactive material (`get_object_or_404` with
`is_active=True`), `validationError` for a non-positive quantity
(`OrderForm.clean_quantity` and the in-transaction recheck), and
`insufficientStock` when the quantity exceeds the current stock — the
condition tested identically by `OrderForm.clean_quantity` and by the
view under `select_for_update`, which coincide in the serialized
semantics. -/
inductive PlaceResult
  | notFound
  | validationError
  | insufficientStock
deriving DecidableEq, Repr

/-- `place_order` (views.py lines 392-447), serialized semantics of the
`transaction.atomic` block: look up the active material, validate the
quantity, check stock, then create the Order with
`total_price = unit_price * quantity` and status `pending` (the model
default), decrement `stock_level`, and run `assign_delivery_agent`.
`oid` and `did` are the fresh primary keys for the new rows. -/
def place_order (st : State) (eng mid : Nat) (qty : Int) (oid did : Nat) :
    Except PlaceResult State :=
  match lookupTable st.materials mid with
  | none => Except.error PlaceResult.notFound
  | some m =>
    if !m.is_active then Except.error PlaceResult.notFound
    else if qty ≤ 0 then Except.error PlaceResult.validationError
    else if qty > m.stock_level then Except.error PlaceResult.insufficientStock
    else
      let ord : Order := ⟨eng, m.supplier, mid, qty, m.unit_price * qty, OrderStatus.pending⟩
      let st1 : State := { st with
        orders := (oid, ord) :: st.orders,
        materials := updateTable st.materials mid { m with stock_level := m.stock_level - qty } }
      Except.ok (assign_delivery_agent st1 oid did)

/-- Failure outcomes of `cancel_order` (views.py lines 456-480):
`notFound` when `get_object_or_404(Order, pk=order_id,
engineer=request.user.profile)` finds no row owned by the actor (or the
material row vanished inside the transaction), `invalidTransition` when
the status is not cancellable. -/
inductive CancelResult
  | notFound
  | invalidTransition
deriving DecidableEq, Repr

/-- `cancel_order` (views.py lines 456-480): the order must belong to the
acting engineer; only statuses `pending` and `confirmed` are cancellable;
on success, atomically restore `stock_level += quantity`
(`update_fields=["stock_level"]`) and set status `cancelled`
(`update_fields=["status"]`). -/
def cancel_order (st : State) (orderId actor : Nat) : Except CancelResult State :=
  match lookupTable st.orders orderId with
  | none => Except.error CancelResult.notFound
  | some ord =>
    if ord.engineer != actor then Except.error CancelResult.notFound
    else if ord.status == OrderStatus.pending || ord.status == OrderStatus.confirmed then
      match lookupTable st.materials ord.material with
      | none => Except.error CancelResult.notFound
      | some m =>
        Except.ok { st with
          materials := updateTable st.materials ord.material
            { m with stock_level := m.stock_level + ord.quantity },
          orders := updateTable st.orders orderId { ord with status := OrderStatus.cancelled } }
    else Except.error CancelResult.invalidTransition

/-- Failure outcomes of `delivery_update_status` (views.py lines
788-851): `notFound` for a missing delivery, `forbidden` for the
`HttpResponseForbidden` branch, `invalidAction` for an action outside
the allowed set. -/
inductive AdvanceResult
  | notFound
  | forbidden
  | invalidAction
deriving DecidableEq, Repr

/-- Append-only notes update of `delivery_update_status` (views.py lines
808-811): prepend a newline separator when notes already exist, and tag
the new line with the request timestamp `ts`. -/
def appendNote (existing ts line : String) : String :=
  if existing != "" then existing ++ "\n[" ++ ts ++ "] " ++ line
  else "[" ++ ts ++ "] " ++ line

/-- Notes handling of `delivery_update_status` (views.py lines 808-811):
append a timestamped line when notes text was submitted, otherwise leave
the field alone. -/
def noteUpd (d : Delivery) (notesIn ts : String) : Delivery :=
  if notesIn != "" then { d with notes := appendNote d.notes ts notesIn } else d

/-- Timestamp guard of `delivery_update_status` (views.py lines 818-819
for the dispatch action and the identical back-fill at lines 825-826):
set `dispatched_at` only when it is not already set. -/
def dispatchUpd (d : Delivery) (t : Int) : Delivery :=
  if d.dispatched_at == none then { d with dispatched_at := some t } else d

/-- Deliver-timestamp guard of `delivery_update_status` (views.py lines
822-823): set `delivered_at` only when it is not already set. -/
def deliverUpd (d : Delivery) (t : Int) : Delivery :=
  if d.delivered_at == none then { d with delivered_at := some t } else d

/-- Body of `delivery_update_status` after the permission check (views.py
lines 797-835).  `t1` is the `timezone.now()` read at the action's first
timestamp assignment (line 819 for dispatch, line 823 for deliver) and
`t2` the separate `timezone.now()` read at the back-fill assignment
(line 826); `ts` renders the notes timestamp.  The `current_location`
and `last_updated_by` branches are dead code — `Delivery` has neither
field, so both `hasattr` probes fail — and the deliver action sets the
parent order's status to `delivered` unconditionally whenever the order
row exists. -/
def advanceBody (st : State) (pk : Nat) (action notesIn ts : String)
    (t1 t2 : Int) (d : Delivery) : Except AdvanceResult State :=
  if !(action == "dispatched" || action == "delivered") then
    Except.error AdvanceResult.invalidAction
  else
    let d1 := noteUpd d notesIn ts
    if action == "dispatched" then
      Except.ok { st with deliveries := updateTable st.deliveries pk (dispatchUpd d1 t1) }
    else
      let d3 := dispatchUpd (deliverUpd d1 t1) t2
      let newOrders :=
        match lookupTable st.orders d.order with
        | some ord => updateTable st.orders d.order { ord with status := OrderStatus.delivered }
        | none => st.orders
      Except.ok { st with deliveries := updateTable st.deliveries pk d3, orders := newOrders }

/-- `delivery_update_status` (views.py lines 788-851): look up the
delivery; return `forbidden` only when `delivery.delivery_agent` is set
and differs from the actor (line 794 — an unassigned delivery passes the
check); then run the action body. -/
def delivery_update_status (st : State) (pk actor : Nat)
    (action notesIn ts : String) (t1 t2 : Int) : Except AdvanceResult State :=
  match lookupTable st.deliveries pk with
  | none => Except.error AdvanceResult.notFound
  | some d =>
    match d.delivery_agent with
    | some a =>
      if a != actor then Except.error AdvanceResult.forbidden
      else advanceBody st pk action notesIn ts t1 t2 d
    | none => advanceBody st pk action notesIn ts t1 t2 d

/-- `Material.adjust_stock` (core/models.py lines 134-142): raise
`ValueError` when decrementing below zero, otherwise apply the delta and
return the new stock level. -/
def adjust_stock (m : Material) (delta : Int) : Except String (Material × Int) :=
  if delta < 0 ∧ |delta| > m.stock_level then
    Except.error "Not enough stock to decrement by requested amount."
  else
    let m2 := { m with stock_level := m.stock_level + delta }
    Except.ok (m2, m2.stock_level)

/-- Supplier material edit (views.py `supplier_edit_material`, lines
643-662): `MaterialForm.save` persists new field values on the Material
row only; Order rows are untouched.  Modelled for the `unit_price`
field, the one relevant to total-price immutability. -/
def supplier_edit_unit_price (st : State) (mid : Nat) (p : Int) : State :=
  match lookupTable st.materials mid with
  | none => st
  | some m =>
    { st with materials := updateTable st.materials mid { m with unit_price := p } }

/-- Schema invariant: `stock_level` is a `PositiveIntegerField`, hence
non-negative on every Material row. -/
def StockNonneg (st : State) : Prop := ∀ e ∈ st.materials, 0 ≤ e.2.stock_level

/-- Schema invariant: `quantity` is a `PositiveIntegerField` with
`MinValueValidator(1)`, hence positive on every Order row. -/
def QtyPos (st : State) : Prop := ∀ e ∈ st.orders, 0 < e.2.quantity

/-- A successful lookup returns a row of the table. -/
theorem lookupTable_mem {α : Type} {t : List (Nat × α)} {k : Nat} {v : α}
    (h : lookupTable t k = some v) : (k, v) ∈ t := by
  induction t with
  | nil => simp [lookupTable] at h
  | cons e rest ih =>
    by_cases hk : e.1 = k
    · simp only [lookupTable, hk, if_pos rfl] at h
      cases h
      cases e with
      | mk a b =>
        simp only at hk
        subst hk
        exact List.mem_cons_self _ _
    · simp only [lookupTable, hk, if_false] at h
      exact List.mem_cons_of_mem _ (ih (by simpa [lookupTable, hk] using h))

/-- Every row of an updated table is the new row or an old row. -/
theorem mem_updateTable {α : Type} {t : List (Nat × α)} {k : Nat} {v : α} {e : Nat × α}
    (h : e ∈ updateTable t k v) : e = (k, v) ∨ e ∈ t := by
  induction t with
  | nil => simp [updateTable] at h
  | cons f rest ih =>
    simp only [updateTable, List.mem_cons] at h
    rcases h with h | h
    · by_cases hk : f.1 = k
      · simp [hk] at h
        exact Or.inl h
      · simp [hk] at h
        exact Or.inr (h ▸ List.mem_cons_self f rest)
    · rcases ih h with h2 | h2
      · exact Or.inl h2
      · exact Or.inr (List.mem_cons_of_mem _ h2)

/-- Looking up the updated key returns the new value (when the key was
present). -/
theorem lookupTable_updateTable_self {α : Type} (t : List (Nat × α)) (k : Nat) (v : α) :
    lookupTable (updateTable t k v) k = (lookupTable t k).map (fun _ => v) := by
  induction t with
  | nil => simp [lookupTable, updateTable]
  | cons e rest ih =>
    by_cases hk : e.1 = k
    · simp [lookupTable, updateTable, hk]
    · simp [lookupTable, updateTable, hk, ih]

/-- Updating one key leaves lookups of other keys unchanged. -/
theorem lookupTable_updateTable_ne {α : Type} (t : List (Nat × α)) {k k' : Nat} (v : α)
    (h : k' ≠ k) : lookupTable (updateTable t k v) k' = lookupTable t k' := by
  induction t with
  | nil => simp [lookupTable, updateTable]
  | cons e rest ih =>
    by_cases hk : e.1 = k
    · have : ¬ (k = k') := fun hc => h hc.symm
      simp [lookupTable, updateTable, hk, this, ih]
    · simp [lookupTable, updateTable, hk, ih]

/-- Re-writing the same value is idempotent. -/
theorem updateTable_updateTable {α : Type} (t : List (Nat × α)) (k : Nat) (v : α) :
    updateTable (updateTable t k v) k v = updateTable t k v := by
  induction t with
  | nil => rfl
  | cons e rest ih =>
    by_cases hk : e.1 = k
    · simp [updateTable, hk, ih]
    · simp [updateTable, hk, ih]

/-- Running minimum with first-wins tie-break: the value computed by the
selection loop of `assign_delivery_agent` once a first candidate `b` is
in hand. -/
def minFrom (load : Nat → Nat) (b : Nat) : List Nat → Nat
  | [] => b
  | a :: l => if load a < load b then minFrom load a l else minFrom load b l

theorem selectAgent_go (load : Nat → Nat) (b : Nat) (l : List Nat) :
    l.foldl
      (fun sel a =>
        match sel with
        | none => some a
        | some c => if load a < load c then some a else some c)
      (some b) = some (minFrom load b l) := by
  induction l generalizing b with
  | nil => rfl
  | cons a t ih =>
    by_cases h : load a < load b
    · simp [List.foldl_cons, minFrom, h, ih]
    · simp [List.foldl_cons, minFrom, h, ih]

/-- On a non-empty agent list, the selection loop returns the running
minimum seeded with the first agent. -/
theorem selectAgent_cons (load : Nat → Nat) (b : Nat) (l : List Nat) :
    selectAgent (b :: l) load = some (minFrom load b l) := by
  simp [selectAgent, List.foldl_cons, selectAgent_go]

theorem minFrom_mem (load : Nat → Nat) (b : Nat) (l : List Nat) :
    minFrom load b l ∈ b :: l := by
  induction l generalizing b with
  | nil => simp [minFrom]
  | cons a t ih =>
    by_cases h : load a < load b
    · simp only [minFrom, if_pos h]
      rcases List.mem_cons.mp (ih a) with h2 | h2
      · simp [h2]
      · simp [List.mem_cons_of_mem, h2]
    · simp only [minFrom, if_neg h]
      rcases List.mem_cons.mp (ih b) with h2 | h2
      · simp [h2]
      · simp [List.mem_cons_of_mem, h2]

theorem minFrom_le_base (load : Nat → Nat) (b : Nat) (l : List Nat) :
    load (minFrom load b l) ≤ load b := by
  induction l generalizing b with
  | nil => simp [minFrom]
  | cons a t ih =>
    by_cases h : load a < load b
    · simp only [minFrom, if_pos h]
      exact le_trans (ih a) (le_of_lt h)
    · simp only [minFrom, if_neg h]
      exact ih b

theorem minFrom_le_mem (load : Nat → Nat) (b : Nat) (l : List Nat) :
    ∀ x ∈ l, load (minFrom load b l) ≤ load x := by
  induction l generalizing b with
  | nil => intro x hx; simp at hx
  | cons a t ih =>
    intro x hx
    rcases List.mem_cons.mp hx with hx | hx
    · subst hx
      by_cases h : load x < load b
      · simp only [minFrom, if_pos h]
        exact minFrom_le_base load x t
      · simp only [minFrom, if_neg h]
        exact le_trans (minFrom_le_base load b t) (le_of_not_lt h)
    · by_cases h : load a < load b
      · simp only [minFrom, if_pos h]
        exact ih a x hx
      · simp only [minFrom, if_neg h]
        exact ih b x hx

/-- First-wins tie-break, stated through `List.find?`: the selected agent
is the first one in enumeration order whose load is at most the minimum. -/
theorem minFrom_find? (load : Nat → Nat) (b : Nat) (l : List Nat) :
    (b :: l).find? (fun x => decide (load x ≤ load (minFrom load b l)))
      = some (minFrom load b l) := by
  induction l generalizing b with
  | nil => simp [minFrom, List.find?]
  | cons a t ih =>
    by_cases h : load a < load b
    · simp only [minFrom, if_pos h]
      have hmb : ¬ load b ≤ load (minFrom load a t) :=
        not_le.mpr (lt_of_le_of_lt (minFrom_le_base load a t) h)
      rw [List.find?_cons_of_neg _ (by simpa using hmb)]
      exact ih a
    · simp only [minFrom, if_neg h]
      have hba : load b ≤ load a := le_of_not_lt h
      by_cases hb : load b ≤ load (minFrom load b t)
      · have : minFrom load b t = b := by
          have h1 := minFrom_le_base load b t
          have heq : load (minFrom load b t) = load b := le_antisymm h1 hb
          have hfind := ih b
          rw [List.find?_cons_of_pos _ (by simpa using hb)] at hfind
          exact (Option.some_injective _ hfind).symm
        rw [this]
        rw [List.find?_cons_of_pos _ (by simp)]
      · rw [List.find?_cons_of_neg _ (by simpa using hb)]
        have hma : ¬ load a ≤ load (minFrom load b t) := by
          intro hle
          exact hb (le_trans hba hle)
        rw [List.find?_cons_of_neg _ (by simpa using hma)]
        have hfind := ih b
        rw [List.find?_cons_of_neg _ (by simpa using hb)] at hfind
        exact hfind

/-- `assign_delivery_agent` never touches the materials table. -/
theorem assign_materials (st : State) (oid did : Nat) :
    (assign_delivery_agent st oid did).materials = st.materials := by
  unfold assign_delivery_agent
  repeat' split
  all_goals rfl

/-- `assign_delivery_agent` never touches the orders table. -/
theorem assign_orders (st : State) (oid did : Nat) :
    (assign_delivery_agent st oid did).orders = st.orders := by
  unfold assign_delivery_agent
  repeat' split
  all_goals rfl

/-- `supplier_edit_unit_price` never touches the orders table. -/
theorem supplier_edit_orders (st : State) (mid : Nat) (p : Int) :
    (supplier_edit_unit_price st mid p).orders = st.orders := by
  unfold supplier_edit_unit_price
  repeat' split
  all_goals rfl

/-- Evaluation of a successful `place_order`: with an active material, a
positive quantity and sufficient stock, the order row is created with
`total_price = unit_price * quantity`, the stock is decremented, and the
balancer runs. -/
theorem place_order_ok_eq (st : State) (eng mid : Nat) (q : Int) (oid did : Nat)
    (m : Material) (hm : lookupTable st.materials mid = some m)
    (hact : m.is_active = true) (hq : 0 < q) (hs : q ≤ m.stock_level) :
    place_order st eng mid q oid did =
      Except.ok (assign_delivery_agent
        { st with
          orders := (oid, ⟨eng, m.supplier, mid, q, m.unit_price * q,
            OrderStatus.pending⟩) :: st.orders,
          materials := updateTable st.materials mid
            { m with stock_level := m.stock_level - q } }
        oid did) := by
  simp [place_order, hm, hact, not_le.mpr hq, not_lt.mpr hs]

/-- Evaluation of `place_order` when the quantity exceeds stock. -/
theorem place_order_insufficient (st : State) (eng mid : Nat) (q : Int) (oid did : Nat)
    (m : Material) (hm : lookupTable st.materials mid = some m)
    (hact : m.is_active = true) (hq : 0 < q) (hs : m.stock_level < q) :
    place_order st eng mid q oid did = Except.error PlaceResult.insufficientStock := by
  simp [place_order, hm, hact, not_le.mpr hq, hs]

/-- Inversion of a successful `place_order`. -/
theorem place_order_ok_inv {st : State} {eng mid : Nat} {q : Int} {oid did : Nat}
    {st' : State} (h : place_order st eng mid q oid did = Except.ok st') :
    ∃ m, lookupTable st.materials mid = some m ∧ m.is_active = true ∧ 0 < q ∧
      q ≤ m.stock_level ∧
      st' = assign_delivery_agent
        { st with
          orders := (oid, ⟨eng, m.supplier, mid, q, m.unit_price * q,
            OrderStatus.pending⟩) :: st.orders,
          materials := updateTable st.materials mid
            { m with stock_level := m.stock_level - q } }
        oid did := by
  unfold place_order at h
  split at h
  · exact Except.noConfusion h
  next m hm =>
    split at h
    · exact Except.noConfusion h
    next hact =>
      split at h
      · exact Except.noConfusion h
      next hqle =>
        split at h
        · exact Except.noConfusion h
        next hgt =>
          refine ⟨m, hm, by simpa using hact, lt_of_not_le hqle, le_of_not_lt hgt, ?_⟩
          exact (Except.ok.injEq _ _ ▸ h).symm

/-- Inversion of a successful `cancel_order`: the order belongs to the
actor, its status was cancellable, and the new state restores the stock
and marks the order cancelled. -/
theorem cancel_order_ok_inv {st : State} {orderId actor : Nat} {st' : State}
    (h : cancel_order st orderId actor = Except.ok st') :
    ∃ ord m, lookupTable st.orders orderId = some ord ∧ ord.engineer = actor ∧
      (ord.status = OrderStatus.pending ∨ ord.status = OrderStatus.confirmed) ∧
      lookupTable st.materials ord.material = some m ∧
      st' = { st with
        materials := updateTable st.materials ord.material
          { m with stock_level := m.stock_level + ord.quantity },
        orders := updateTable st.orders orderId
          { ord with status := OrderStatus.cancelled } } := by
  unfold cancel_order at h
  split at h
  · exact Except.noConfusion h
  next ord hord =>
    split at h
    · exact Except.noConfusion h
    next heng =>
      split at h
      next hstat =>
        split at h
        · exact Except.noConfusion h
        next m hm =>
          refine ⟨ord, m, hord, by simpa using heng, ?_, hm, ?_⟩
          · have h2 := hstat
            simp only [Bool.or_eq_true, beq_iff_eq] at h2
            exact h2
          · exact ((Except.ok.injEq _ _).mp h).symm
      · exact Except.noConfusion h

/-- C1: every core operation — `place_order`'s reserve, `cancel_order`'s
release, and `Material.adjust_stock` — preserves non-negativity of
`stock_level`, and a `place_order` call with positive quantity succeeds
exactly when the quantity is at most the current stock, failing with
`insufficientStock` exactly when it exceeds it. -/
theorem c1_stock_nonneg_and_placement_exact
    (st : State) (hinv : StockNonneg st) (hqty : QtyPos st)
    (eng mid oid did orderId actor : Nat) (q delta : Int) (m : Material)
    (hm : lookupTable st.materials mid = some m) (hact : m.is_active = true)
    (hq : 0 < q) :
    (∀ st', place_order st eng mid q oid did = Except.ok st' → StockNonneg st') ∧
    (∀ st', cancel_order st orderId actor = Except.ok st' → StockNonneg st') ∧
    (∀ m2 lvl, adjust_stock m delta = Except.ok (m2, lvl) → 0 ≤ m2.stock_level) ∧
    ((∃ st', place_order st eng mid q oid did = Except.ok st') ↔ q ≤ m.stock_level) ∧
    (place_order st eng mid q oid did = Except.error PlaceResult.insufficientStock ↔
      m.stock_level < q) := by
  have hm0 : 0 ≤ m.stock_level := hinv (mid, m) (lookupTable_mem hm)
  refine ⟨?_, ?_, ?_, ?_, ?_⟩
  · intro st' h e he
    rcases place_order_ok_inv h with ⟨m1, hm1, hact1, hq1, hs1, hst'⟩
    rw [hst', assign_materials] at he
    rcases mem_updateTable he with he2 | he2
    · subst he2
      simpa using sub_nonneg.mpr hs1
    · exact hinv e he2
  · intro st' h e he
    rcases cancel_order_ok_inv h with ⟨ord, m1, hord, heng, hstat, hm1, hst'⟩
    rw [hst'] at he
    rcases mem_updateTable he with he2 | he2
    · subst he2
      have h1 : 0 ≤ m1.stock_level := hinv (ord.material, m1) (lookupTable_mem hm1)
      have h2 : 0 < ord.quantity := hqty (orderId, ord) (lookupTable_mem hord)
      simpa using add_nonneg h1 (le_of_lt h2)
    · exact hinv e he2
  · intro m2 lvl h
    unfold adjust_stock at h
    split at h
    · exact Except.noConfusion h
    next hcond =>
      push_neg at hcond
      have hm2 : m2 = { m with stock_level := m.stock_level + delta } := by
        simpa using congrArg (fun r => match r with
          | Except.ok p => p.1
          | Except.error _ => m2) h.symm
      subst hm2
      by_cases hd : 0 ≤ delta
      · simpa using add_nonneg hm0 hd
      · have hd' : delta < 0 := lt_of_not_le hd
        have habs := hcond hd'
        rw [abs_of_neg hd'] at habs
        simp only
        linarith
  · constructor
    · rintro ⟨st', h⟩
      rcases place_order_ok_inv h with ⟨m1, hm1, _, _, hs1, _⟩
      have : m1 = m := by
        have := hm1.symm.trans hm
        simpa using this
      exact this ▸ hs1
    · intro hs
      exact ⟨_, place_order_ok_eq st eng mid q oid did m hm hact hq hs⟩
  · constructor
    · intro h
      by_contra hc
      push_neg at hc
      rw [place_order_ok_eq st eng mid q oid did m hm hact hq hc] at h
      exact Except.noConfusion h
    · intro hs
      exact place_order_insufficient st eng mid q oid did m hm hact hq hs

/-- Material row used by the C1 witness: supplier 5, price 200 cents,
stock 10, active. -/
def w1mat : Material := ⟨5, 200, 10, true⟩

/-- Concrete state for the C1 witness: one material, one pending order
(engineer 9, quantity 2) on it. -/
def w1st : State :=
  { materials := [(1, w1mat)],
    orders := [(1, ⟨9, 5, 1, 2, 400, OrderStatus.pending⟩)],
    deliveries := [], agents := [], addresses := [] }

/-- Witness for C1 at the concrete state `w1st`, quantity 3, delta -5. -/
theorem c1_stock_nonneg_and_placement_exact_witness :
    (StockNonneg w1st ∧ QtyPos w1st ∧ lookupTable w1st.materials 1 = some w1mat ∧
      w1mat.is_active = true ∧ (0:Int) < 3) ∧
    ((∀ st', place_order w1st 9 1 3 2 1 = Except.ok st' → StockNonneg st') ∧
     (∀ st', cancel_order w1st 1 9 = Except.ok st' → StockNonneg st') ∧
     (∀ m2 lvl, adjust_stock w1mat (-5) = Except.ok (m2, lvl) → 0 ≤ m2.stock_level) ∧
     ((∃ st', place_order w1st 9 1 3 2 1 = Except.ok st') ↔ (3:Int) ≤ w1mat.stock_level) ∧
     (place_order w1st 9 1 3 2 1 = Except.error PlaceResult.insufficientStock ↔
       w1mat.stock_level < 3)) :=
  ⟨⟨by unfold StockNonneg; decide, by unfold QtyPos; decide, by decide, by decide, by decide⟩,
    c1_stock_nonneg_and_placement_exact w1st (by unfold StockNonneg; decide)
      (by unfold QtyPos; decide) 9 1 2 1 1 9 3 (-5) w1mat (by decide) (by decide) (by decide)⟩

/-- C2: a successful `place_order` with unit price `p`, stock `s` and
quantity `0 < q ≤ s` creates an Order with
`total_price = p * q` (computed at placement time), leaves the material
with `stock_level = s - q`, and a later unit-price edit by the supplier
does not touch the order row, so `total_price` is never recomputed. -/
theorem c2_total_price_at_placement
    (st : State) (eng mid oid did : Nat) (q : Int) (m : Material)
    (hm : lookupTable st.materials mid = some m) (hact : m.is_active = true)
    (hq : 0 < q) (hs : q ≤ m.stock_level) :
    ∃ st', place_order st eng mid q oid did = Except.ok st' ∧
      lookupTable st'.orders oid =
        some ⟨eng, m.supplier, mid, q, m.unit_price * q, OrderStatus.pending⟩ ∧
      (lookupTable st'.materials mid).map Material.stock_level =
        some (m.stock_level - q) ∧
      (∀ p', lookupTable (supplier_edit_unit_price st' mid p').orders oid =
        lookupTable st'.orders oid) := by
  refine ⟨_, place_order_ok_eq st eng mid q oid did m hm hact hq hs, ?_, ?_, ?_⟩
  · rw [assign_orders]
    simp [lookupTable]
  · rw [assign_materials]
    simp [lookupTable_updateTable_self, hm]
  · intro p'
    rw [supplier_edit_orders]

/-- Witness for C2 at `w1st`: stock 10, unit price 200 cents (2.00),
quantity 3 — the created order carries total_price 600 cents (6.00) and
the stock becomes 7. -/
theorem c2_total_price_at_placement_witness :
    (lookupTable w1st.materials 1 = some w1mat ∧ w1mat.is_active = true ∧
      (0:Int) < 3 ∧ (3:Int) ≤ w1mat.stock_level) ∧
    (∃ st', place_order w1st 9 1 3 2 1 = Except.ok st' ∧
      lookupTable st'.orders 2 =
        some ⟨9, w1mat.supplier, 1, 3, w1mat.unit_price * 3, OrderStatus.pending⟩ ∧
      (lookupTable st'.materials 1).map Material.stock_level =
        some (w1mat.stock_level - 3) ∧
      (∀ p', lookupTable (supplier_edit_unit_price st' 1 p').orders 2 =
        lookupTable st'.orders 2)) :=
  ⟨⟨by decide, by decide, by decide, by decide⟩,
    c2_total_price_at_placement w1st 9 1 2 1 3 w1mat (by decide) (by decide)
      (by decide) (by decide)⟩

/-- Evaluation of a successful `cancel_order`: with an order owned by the
actor in a cancellable status and its material present, the stock is
restored and the order marked cancelled. -/
theorem cancel_order_ok_eq (st : State) (orderId actor : Nat) (ord : Order)
    (m : Material) (hord : lookupTable st.orders orderId = some ord)
    (heng : ord.engineer = actor)
    (hstat : ord.status = OrderStatus.pending ∨ ord.status = OrderStatus.confirmed)
    (hm : lookupTable st.materials ord.material = some m) :
    cancel_order st orderId actor =
      Except.ok { st with
        materials := updateTable st.materials ord.material
          { m with stock_level := m.stock_level + ord.quantity },
        orders := updateTable st.orders orderId
          { ord with status := OrderStatus.cancelled } } := by
  rcases hstat with hstat | hstat <;>
    simp [cancel_order, hord, hm, heng, hstat]

/-- C3: `place_order` immediately followed by `cancel_order` by the same
engineer (the fresh order is `pending`, hence still cancellable)
restores the material's `stock_level` to exactly its pre-order value. -/
theorem c3_place_then_cancel_roundtrip
    (st : State) (eng mid oid did : Nat) (q : Int) (m : Material)
    (hm : lookupTable st.materials mid = some m) (hact : m.is_active = true)
    (hq : 0 < q) (hs : q ≤ m.stock_level) :
    ∃ st1 st2, place_order st eng mid q oid did = Except.ok st1 ∧
      cancel_order st1 oid eng = Except.ok st2 ∧
      (lookupTable st2.materials mid).map Material.stock_level =
        some m.stock_level := by
  have hplace := place_order_ok_eq st eng mid q oid did m hm hact hq hs
  have ho : lookupTable (assign_delivery_agent
      { st with
        orders := (oid, ⟨eng, m.supplier, mid, q, m.unit_price * q,
          OrderStatus.pending⟩) :: st.orders,
        materials := updateTable st.materials mid
          { m with stock_level := m.stock_level - q } } oid did).orders oid =
      some ⟨eng, m.supplier, mid, q, m.unit_price * q, OrderStatus.pending⟩ := by
    rw [assign_orders]
    simp [lookupTable]
  have hmm : lookupTable (assign_delivery_agent
      { st with
        orders := (oid, ⟨eng, m.supplier, mid, q, m.unit_price * q,
          OrderStatus.pending⟩) :: st.orders,
        materials := updateTable st.materials mid
          { m with stock_level := m.stock_level - q } } oid did).materials mid =
      some { m with stock_level := m.stock_level - q } := by
    rw [assign_materials]
    simp [lookupTable_updateTable_self, hm]
  have hcancel := cancel_order_ok_eq _ oid eng _ _ ho rfl (Or.inl rfl) hmm
  refine ⟨_, _, hplace, hcancel, ?_⟩
  show (lookupTable (updateTable _ _ _) mid).map Material.stock_level = _
  rw [lookupTable_updateTable_self, hmm]
  simp

/-- Witness for C3 at `w1st`: place quantity 3 (stock 10), cancel, stock
back to 10. -/
theorem c3_place_then_cancel_roundtrip_witness :
    (lookupTable w1st.materials 1 = some w1mat ∧ w1mat.is_active = true ∧
      (0:Int) < 3 ∧ (3:Int) ≤ w1mat.stock_level) ∧
    (∃ st1 st2, place_order w1st 9 1 3 2 1 = Except.ok st1 ∧
      cancel_order st1 2 9 = Except.ok st2 ∧
      (lookupTable st2.materials 1).map Material.stock_level =
        some w1mat.stock_level) :=
  ⟨⟨by decide, by decide, by decide, by decide⟩,
    c3_place_then_cancel_roundtrip w1st 9 1 2 1 3 w1mat (by decide) (by decide)
      (by decide) (by decide)⟩

/-- Evaluation of the dispatch action body. -/
theorem advanceBody_dispatched_eq (st : State) (pk : Nat) (notesIn ts : String)
    (t1 t2 : Int) (d : Delivery) :
    advanceBody st pk "dispatched" notesIn ts t1 t2 d =
      Except.ok { st with
        deliveries :=
          updateTable st.deliveries pk (dispatchUpd (noteUpd d notesIn ts) t1) } := rfl

/-- Evaluation of the deliver action body. -/
theorem advanceBody_delivered_eq (st : State) (pk : Nat) (notesIn ts : String)
    (t1 t2 : Int) (d : Delivery) :
    advanceBody st pk "delivered" notesIn ts t1 t2 d =
      Except.ok { st with
        deliveries := updateTable st.deliveries pk
          (dispatchUpd (deliverUpd (noteUpd d notesIn ts) t1) t2),
        orders :=
          (match lookupTable st.orders d.order with
          | some ord =>
            updateTable st.orders d.order { ord with status := OrderStatus.delivered }
          | none => st.orders) } := rfl

/-- An authorized request (no assigned agent, or the actor is the
assigned agent) runs the action body. -/
theorem delivery_update_status_eq_body (st : State) (pk actor : Nat)
    (action notesIn ts : String) (t1 t2 : Int) (d : Delivery)
    (hd : lookupTable st.deliveries pk = some d)
    (hauth : d.delivery_agent = none ∨ d.delivery_agent = some actor) :
    delivery_update_status st pk actor action notesIn ts t1 t2 =
      advanceBody st pk action notesIn ts t1 t2 d := by
  unfold delivery_update_status
  rw [hd]
  rcases hauth with h | h <;> simp [h]

/-- A request by anyone other than the assigned agent is forbidden. -/
theorem delivery_update_status_forbidden_eq (st : State) (pk actor a : Nat)
    (action notesIn ts : String) (t1 t2 : Int) (d : Delivery)
    (hd : lookupTable st.deliveries pk = some d)
    (ha : d.delivery_agent = some a) (hne : a ≠ actor) :
    delivery_update_status st pk actor action notesIn ts t1 t2 =
      Except.error AdvanceResult.forbidden := by
  unfold delivery_update_status
  rw [hd]
  simp [ha, hne]

/-- The dispatch action never touches the orders table. -/
theorem dispatch_preserves_orders {st : State} {pk actor : Nat}
    {notesIn ts : String} {t1 t2 : Int} {st' : State}
    (h : delivery_update_status st pk actor "dispatched" notesIn ts t1 t2 =
      Except.ok st') : st'.orders = st.orders := by
  unfold delivery_update_status at h
  split at h
  · exact Except.noConfusion h
  next d hd =>
    have hbody : advanceBody st pk "dispatched" notesIn ts t1 t2 d = Except.ok st' := by
      split at h
      next a =>
        split at h
        · exact Except.noConfusion h
        · exact h
      · exact h
    rw [advanceBody_dispatched_eq] at hbody
    have := (Except.ok.injEq _ _).mp hbody
    rw [← this]

/-- The deliver action, when it succeeds, leaves the parent order with
status `delivered` — regardless of the status it had before. -/
theorem deliver_forces_delivered {st : State} {pk actor : Nat}
    {notesIn ts : String} {t1 t2 : Int} {st' : State} {d : Delivery} {ord : Order}
    (hd : lookupTable st.deliveries pk = some d)
    (hord : lookupTable st.orders d.order = some ord)
    (h : delivery_update_status st pk actor "delivered" notesIn ts t1 t2 =
      Except.ok st') :
    (lookupTable st'.orders d.order).map Order.status =
      some OrderStatus.delivered := by
  unfold delivery_update_status at h
  split at h
  · exact Except.noConfusion h
  next dd hdd =>
    have hdd2 : dd = d := by
      have := hdd.symm.trans hd
      simpa using this
    subst hdd2
    have hbody : advanceBody st pk "delivered" notesIn ts t1 t2 dd = Except.ok st' := by
      split at h
      next a =>
        split at h
        · exact Except.noConfusion h
        · exact h
      · exact h
    rw [advanceBody_delivered_eq] at hbody
    have hst' := (Except.ok.injEq _ _).mp hbody
    rw [← hst']
    show (lookupTable (match lookupTable st.orders dd.order with
      | some o => updateTable st.orders dd.order { o with status := OrderStatus.delivered }
      | none => st.orders) dd.order).map Order.status = some OrderStatus.delivered
    rw [hord]
    rw [lookupTable_updateTable_self, hord]
    rfl

/-- Concrete state for the C4 counterexample: order 1 is `cancelled`
(terminal), its delivery 1 is assigned to agent 7 and not delivered. -/
def w4st : State :=
  { materials := [(1, w1mat)],
    orders := [(1, ⟨9, 5, 1, 2, 400, OrderStatus.cancelled⟩)],
    deliveries := [(1, ⟨1, some 7, none, none, "", ""⟩)],
    agents := [7], addresses := [] }

/-- Counterexample to C4: order 1 of `w4st` is in the terminal state
`cancelled`, yet the assigned agent's deliver action succeeds and moves
its status to `delivered` — a transition out of a terminal state
(views.py lines 828-830 set the status unconditionally). -/
theorem c4_counterexample :
    (lookupTable w4st.orders 1).map Order.status = some OrderStatus.cancelled ∧
    (∃ st', delivery_update_status w4st 1 7 "delivered" "" "" 10 11 =
      Except.ok st') ∧
    (lookupTable (settle w4st
        (delivery_update_status w4st 1 7 "delivered" "" "" 10 11)).orders 1).map
      Order.status = some OrderStatus.delivered :=
  ⟨rfl, ⟨_, rfl⟩, rfl⟩

/-- C4 (amended): no operation moves an order out of `delivered`, and
`cancel_order` refuses both terminal states (`cancelled` is reachable
only from `pending` or `confirmed`, and the dispatch action never
touches order statuses); however, the deliver action sets the parent
order's status to `delivered` regardless of its current status, so a
cancelled order with a delivery row is moved to `delivered` when its
delivery is marked delivered. -/
theorem c4_terminal_states_amended
    (st : State) (orderId actor : Nat) (ord : Order)
    (hord : lookupTable st.orders orderId = some ord)
    (hterm : ord.status = OrderStatus.delivered ∨ ord.status = OrderStatus.cancelled) :
    (∀ st', cancel_order st orderId actor = Except.ok st' → False) ∧
    settle st (cancel_order st orderId actor) = st ∧
    (ord.engineer = actor →
      cancel_order st orderId actor = Except.error CancelResult.invalidTransition) ∧
    (∀ pk actor2 notesIn ts t1 t2 st',
      delivery_update_status st pk actor2 "dispatched" notesIn ts t1 t2 =
        Except.ok st' → st'.orders = st.orders) ∧
    (∀ pk actor2 notesIn ts t1 t2 st' d,
      lookupTable st.deliveries pk = some d → d.order = orderId →
      delivery_update_status st pk actor2 "delivered" notesIn ts t1 t2 =
        Except.ok st' →
      (lookupTable st'.orders orderId).map Order.status =
        some OrderStatus.delivered) := by
  have hnotok : ∀ st', cancel_order st orderId actor = Except.ok st' → False := by
    intro st' h
    rcases cancel_order_ok_inv h with ⟨ord2, m2, hord2, _, hstat2, _, _⟩
    have : ord2 = ord := by
      have := hord2.symm.trans hord
      simpa using this
    subst this
    rcases hterm with h1 | h1 <;> rcases hstat2 with h2 | h2 <;> simp [h1] at h2
  refine ⟨hnotok, ?_, ?_, ?_, ?_⟩
  · cases hc : cancel_order st orderId actor with
    | ok s => exact absurd hc (fun hcc => hnotok s hcc)
    | error e => rfl
  · intro heng
    rcases hterm with h1 | h1 <;> simp [cancel_order, hord, heng, h1]
  · intro pk actor2 notesIn ts t1 t2 st' h
    exact dispatch_preserves_orders h
  · intro pk actor2 notesIn ts t1 t2 st' d hd horder h
    have := deliver_forces_delivered hd (horder ▸ hord) h
    rwa [horder] at this

/-- Witness for C4 (amended) at `w4st` (order 1 cancelled, owned by
engineer 9). -/
theorem c4_terminal_states_amended_witness :
    (lookupTable w4st.orders 1 = some ⟨9, 5, 1, 2, 400, OrderStatus.cancelled⟩ ∧
      ((⟨9, 5, 1, 2, 400, OrderStatus.cancelled⟩ : Order).status =
          OrderStatus.delivered ∨
        (⟨9, 5, 1, 2, 400, OrderStatus.cancelled⟩ : Order).status =
          OrderStatus.cancelled)) ∧
    ((∀ st', cancel_order w4st 1 9 = Except.ok st' → False) ∧
     settle w4st (cancel_order w4st 1 9) = w4st ∧
     ((⟨9, 5, 1, 2, 400, OrderStatus.cancelled⟩ : Order).engineer = 9 →
       cancel_order w4st 1 9 = Except.error CancelResult.invalidTransition) ∧
     (∀ pk actor2 notesIn ts t1 t2 st',
       delivery_update_status w4st pk actor2 "dispatched" notesIn ts t1 t2 =
         Except.ok st' → st'.orders = w4st.orders) ∧
     (∀ pk actor2 notesIn ts t1 t2 st' d,
       lookupTable w4st.deliveries pk = some d → d.order = 1 →
       delivery_update_status w4st pk actor2 "delivered" notesIn ts t1 t2 =
         Except.ok st' →
       (lookupTable st'.orders 1).map Order.status =
         some OrderStatus.delivered)) :=
  ⟨⟨by decide, by decide⟩,
    c4_terminal_states_amended w4st 1 9 ⟨9, 5, 1, 2, 400, OrderStatus.cancelled⟩
      (by decide) (by decide)⟩

/-- C5: `cancel_order` succeeds only when the actor is the owning
engineer and the status is `pending` or `confirmed`, in which case the
stock is released and the status becomes `cancelled` in one atomic unit;
for an order owned by the actor in any other status it fails with
`invalidTransition` and leaves all state unchanged. -/
theorem c5_cancel_order_contract
    (st : State) (orderId actor : Nat) (ord : Order)
    (hord : lookupTable st.orders orderId = some ord) :
    (∀ st', cancel_order st orderId actor = Except.ok st' →
      ord.engineer = actor ∧
      (ord.status = OrderStatus.pending ∨ ord.status = OrderStatus.confirmed) ∧
      ∃ m, lookupTable st.materials ord.material = some m ∧
        lookupTable st'.materials ord.material =
          some { m with stock_level := m.stock_level + ord.quantity } ∧
        lookupTable st'.orders orderId =
          some { ord with status := OrderStatus.cancelled }) ∧
    (ord.engineer = actor → ord.status ≠ OrderStatus.pending →
      ord.status ≠ OrderStatus.confirmed →
      cancel_order st orderId actor = Except.error CancelResult.invalidTransition ∧
      settle st (cancel_order st orderId actor) = st) := by
  constructor
  · intro st' h
    rcases cancel_order_ok_inv h with ⟨ord2, m2, hord2, heng, hstat, hm2, hst'⟩
    have hoo : ord2 = ord := by
      have := hord2.symm.trans hord
      simpa using this
    subst hoo
    refine ⟨heng, hstat, m2, hm2, ?_, ?_⟩
    · rw [hst']
      show lookupTable (updateTable st.materials _ _) _ = _
      rw [lookupTable_updateTable_self, hm2]
      rfl
    · rw [hst']
      show lookupTable (updateTable st.orders _ _) _ = _
      rw [lookupTable_updateTable_self, hord]
      rfl
  · intro heng hp hc
    have herr : cancel_order st orderId actor =
        Except.error CancelResult.invalidTransition := by
      simp [cancel_order, hord, heng, hp, hc]
    exact ⟨herr, by rw [herr]; rfl⟩

/-- Concrete state for the C5 witness: order 1 is already `delivered`
and owned by engineer 9. -/
def w5st : State :=
  { materials := [(1, w1mat)],
    orders := [(1, ⟨9, 5, 1, 2, 400, OrderStatus.delivered⟩)],
    deliveries := [], agents := [], addresses := [] }

/-- Witness for C5 at `w5st`: cancelling the already-delivered order 1
by its owner hits the `invalidTransition` branch. -/
theorem c5_cancel_order_contract_witness :
    (lookupTable w5st.orders 1 = some ⟨9, 5, 1, 2, 400, OrderStatus.delivered⟩) ∧
    ((∀ st', cancel_order w5st 1 9 = Except.ok st' →
      (⟨9, 5, 1, 2, 400, OrderStatus.delivered⟩ : Order).engineer = 9 ∧
      ((⟨9, 5, 1, 2, 400, OrderStatus.delivered⟩ : Order).status =
          OrderStatus.pending ∨
        (⟨9, 5, 1, 2, 400, OrderStatus.delivered⟩ : Order).status =
          OrderStatus.confirmed) ∧
      ∃ m, lookupTable w5st.materials
          (⟨9, 5, 1, 2, 400, OrderStatus.delivered⟩ : Order).material = some m ∧
        lookupTable st'.materials
            (⟨9, 5, 1, 2, 400, OrderStatus.delivered⟩ : Order).material =
          some { m with stock_level := m.stock_level +
            (⟨9, 5, 1, 2, 400, OrderStatus.delivered⟩ : Order).quantity } ∧
        lookupTable st'.orders 1 =
          some { (⟨9, 5, 1, 2, 400, OrderStatus.delivered⟩ : Order) with
            status := OrderStatus.cancelled }) ∧
    ((⟨9, 5, 1, 2, 400, OrderStatus.delivered⟩ : Order).engineer = 9 →
      (⟨9, 5, 1, 2, 400, OrderStatus.delivered⟩ : Order).status ≠
        OrderStatus.pending →
      (⟨9, 5, 1, 2, 400, OrderStatus.delivered⟩ : Order).status ≠
        OrderStatus.confirmed →
      cancel_order w5st 1 9 = Except.error CancelResult.invalidTransition ∧
      settle w5st (cancel_order w5st 1 9) = w5st)) :=
  ⟨by decide,
    c5_cancel_order_contract w5st 1 9 ⟨9, 5, 1, 2, 400, OrderStatus.delivered⟩
      (by decide)⟩

/-- Submitting no notes text leaves the delivery unchanged. -/
theorem noteUpd_empty (d : Delivery) (ts : String) : noteUpd d "" ts = d := rfl

/-- `dispatchUpd` only ever touches `dispatched_at`. -/
theorem dispatchUpd_delivery_agent (d : Delivery) (t : Int) :
    (dispatchUpd d t).delivery_agent = d.delivery_agent := by
  unfold dispatchUpd
  split <;> rfl

/-- `dispatchUpd` leaves `delivered_at` alone. -/
theorem dispatchUpd_delivered_at (d : Delivery) (t : Int) :
    (dispatchUpd d t).delivered_at = d.delivered_at := by
  unfold dispatchUpd
  split <;> rfl

/-- A second dispatch is a no-op: the timestamp guard fires only once. -/
theorem dispatchUpd_dispatchUpd (d : Delivery) (t t' : Int) :
    dispatchUpd (dispatchUpd d t) t' = dispatchUpd d t := by
  by_cases h : d.dispatched_at = none
  · simp [dispatchUpd, h]
  · simp [dispatchUpd, h]

/-- An already-dispatched delivery is untouched by `dispatchUpd`. -/
theorem dispatchUpd_of_some (d : Delivery) (t : Int) {ta : Int}
    (h : d.dispatched_at = some ta) : dispatchUpd d t = d := by
  simp [dispatchUpd, h]

/-- Back-fill case of `dispatchUpd`. -/
theorem dispatchUpd_of_none (d : Delivery) (t : Int)
    (h : d.dispatched_at = none) :
    dispatchUpd d t = { d with dispatched_at := some t } := by
  simp [dispatchUpd, h]

/-- First-delivery case of `deliverUpd`. -/
theorem deliverUpd_of_none (d : Delivery) (t : Int)
    (h : d.delivered_at = none) :
    deliverUpd d t = { d with delivered_at := some t } := by
  simp [deliverUpd, h]

/-- C6: dispatching a delivery twice has the same observable state as
dispatching it once — the first call succeeds, and the second call (with
no notes text) succeeds and returns the state of the first unchanged, in
particular `dispatched_at` is not overwritten. -/
theorem c6_dispatch_idempotent
    (st : State) (pk actor : Nat) (ts ts2 : String) (t1 t2 t1' t2' : Int)
    (d : Delivery) (hd : lookupTable st.deliveries pk = some d)
    (hauth : d.delivery_agent = none ∨ d.delivery_agent = some actor) :
    ∃ st1, delivery_update_status st pk actor "dispatched" "" ts t1 t2 =
        Except.ok st1 ∧
      delivery_update_status st1 pk actor "dispatched" "" ts2 t1' t2' =
        Except.ok st1 := by
  have hbody1 : delivery_update_status st pk actor "dispatched" "" ts t1 t2 =
      Except.ok { st with
        deliveries := updateTable st.deliveries pk (dispatchUpd d t1) } := by
    rw [delivery_update_status_eq_body st pk actor "dispatched" "" ts t1 t2 d hd
      hauth, advanceBody_dispatched_eq, noteUpd_empty]
  refine ⟨_, hbody1, ?_⟩
  have hd1 : lookupTable ({ st with
      deliveries := updateTable st.deliveries pk (dispatchUpd d t1) } :
        State).deliveries pk = some (dispatchUpd d t1) := by
    show lookupTable (updateTable st.deliveries pk _) pk = _
    rw [lookupTable_updateTable_self, hd]
    rfl
  have hauth1 : (dispatchUpd d t1).delivery_agent = none ∨
      (dispatchUpd d t1).delivery_agent = some actor := by
    rw [dispatchUpd_delivery_agent]
    exact hauth
  rw [delivery_update_status_eq_body _ pk actor "dispatched" "" ts2 t1' t2' _ hd1
    hauth1, advanceBody_dispatched_eq, noteUpd_empty, dispatchUpd_dispatchUpd]
  show Except.ok _ = Except.ok _
  congr 1
  show { st with
    deliveries :=
      updateTable (updateTable st.deliveries pk (dispatchUpd d t1)) pk
        (dispatchUpd d t1) } = _
  rw [updateTable_updateTable]

/-- Concrete state for the C6 witness: delivery 1 for order 1, assigned
to agent 7, not yet dispatched. -/
def w6st : State :=
  { materials := [(1, w1mat)],
    orders := [(1, ⟨9, 5, 1, 2, 400, OrderStatus.pending⟩)],
    deliveries := [(1, ⟨1, some 7, none, none, "", ""⟩)],
    agents := [7], addresses := [] }

/-- Witness for C6 at `w6st`: agent 7 dispatches delivery 1 twice. -/
theorem c6_dispatch_idempotent_witness :
    (lookupTable w6st.deliveries 1 = some ⟨1, some 7, none, none, "", ""⟩ ∧
      ((⟨1, some 7, none, none, "", ""⟩ : Delivery).delivery_agent = none ∨
        (⟨1, some 7, none, none, "", ""⟩ : Delivery).delivery_agent = some 7)) ∧
    (∃ st1, delivery_update_status w6st 1 7 "dispatched" "" "t" 100 101 =
        Except.ok st1 ∧
      delivery_update_status st1 1 7 "dispatched" "" "u" 200 201 =
        Except.ok st1) :=
  ⟨⟨by decide, by decide⟩,
    c6_dispatch_idempotent w6st 1 7 "t" "u" 100 101 200 201
      ⟨1, some 7, none, none, "", ""⟩ (by decide) (by decide)⟩

/-- `noteUpd` only ever touches `notes`. -/
theorem noteUpd_dispatched_at (d : Delivery) (notesIn ts : String) :
    (noteUpd d notesIn ts).dispatched_at = d.dispatched_at := by
  unfold noteUpd
  split <;> rfl

/-- `noteUpd` leaves `delivered_at` alone. -/
theorem noteUpd_delivered_at (d : Delivery) (notesIn ts : String) :
    (noteUpd d notesIn ts).delivered_at = d.delivered_at := by
  unfold noteUpd
  split <;> rfl

/-- `deliverUpd` leaves `dispatched_at` alone. -/
theorem deliverUpd_dispatched_at (d : Delivery) (t : Int) :
    (deliverUpd d t).dispatched_at = d.dispatched_at := by
  unfold deliverUpd
  split <;> rfl

/-- Concrete state for the C7 counterexample: delivery 1 (order 1,
agent 7) has neither timestamp set. -/
def w7st : State :=
  { materials := [(1, w1mat)],
    orders := [(1, ⟨9, 5, 1, 2, 400, OrderStatus.pending⟩)],
    deliveries := [(1, ⟨1, some 7, none, none, "", ""⟩)],
    agents := [7], addresses := [] }

/-- Counterexample to C7: agent 7 marks the never-dispatched delivery 1
delivered; `delivered_at` is assigned the first `timezone.now()` read
(time 0, views.py line 823) and `dispatched_at` is back-filled with the
strictly later second read (time 1, line 826), so after the action
`dispatched_at = 1 > 0 = delivered_at` — the claimed
`dispatched_at ≤ delivered_at` fails. -/
theorem c7_counterexample :
    (lookupTable (settle w7st
        (delivery_update_status w7st 1 7 "delivered" "" "" 0 1)).deliveries 1).map
      Delivery.dispatched_at = some (some 1) ∧
    (lookupTable (settle w7st
        (delivery_update_status w7st 1 7 "delivered" "" "" 0 1)).deliveries 1).map
      Delivery.delivered_at = some (some 0) ∧
    ¬ ((1:Int) ≤ (0:Int)) :=
  ⟨rfl, rfl, by decide⟩

/-- C7 (amended): a successful deliver action always leaves both
timestamps set, and `dispatched_at ≤ delivered_at` holds whenever the
delivery had already been dispatched (at a time no later than the
deliver call); but when `dispatched_at` is missing, it is back-filled
with the second, no-earlier clock read taken after `delivered_at`, so
the order is reversed: `delivered_at ≤ dispatched_at`, with equality
only if the two reads coincide. -/
theorem c7_deliver_ordering_amended
    (st : State) (pk actor : Nat) (notesIn ts : String) (t1 t2 : Int)
    (d : Delivery) (hd : lookupTable st.deliveries pk = some d)
    (hauth : d.delivery_agent = none ∨ d.delivery_agent = some actor)
    (hdel : d.delivered_at = none) (hmono : t1 ≤ t2) :
    ∃ st' d', delivery_update_status st pk actor "delivered" notesIn ts t1 t2 =
        Except.ok st' ∧
      lookupTable st'.deliveries pk = some d' ∧
      d'.delivered_at = some t1 ∧
      (∀ ta, d.dispatched_at = some ta → d'.dispatched_at = some ta) ∧
      (d.dispatched_at = none → d'.dispatched_at = some t2) ∧
      (∀ ta, d.dispatched_at = some ta → ta ≤ t1 →
        ∃ ta2 tb, d'.dispatched_at = some ta2 ∧ d'.delivered_at = some tb ∧
          ta2 ≤ tb) ∧
      (d.dispatched_at = none →
        ∃ ta2 tb, d'.dispatched_at = some ta2 ∧ d'.delivered_at = some tb ∧
          tb ≤ ta2) := by
  have hrun : delivery_update_status st pk actor "delivered" notesIn ts t1 t2 =
      advanceBody st pk "delivered" notesIn ts t1 t2 d :=
    delivery_update_status_eq_body st pk actor "delivered" notesIn ts t1 t2 d hd
      hauth
  rw [hrun, advanceBody_delivered_eq]
  refine ⟨_, dispatchUpd (deliverUpd (noteUpd d notesIn ts) t1) t2, rfl, ?_, ?_,
    ?_, ?_, ?_, ?_⟩
  · show lookupTable (updateTable st.deliveries pk _) pk = _
    rw [lookupTable_updateTable_self, hd]
    rfl
  · rw [dispatchUpd_delivered_at]
    rw [deliverUpd_of_none _ _ (by rw [noteUpd_delivered_at]; exact hdel)]
  · intro ta hta
    rw [dispatchUpd_of_some _ _ (by
      rw [deliverUpd_dispatched_at, noteUpd_dispatched_at]; exact hta)]
    rw [deliverUpd_dispatched_at, noteUpd_dispatched_at]
    exact hta
  · intro hnone
    rw [dispatchUpd_of_none _ _ (by
      rw [deliverUpd_dispatched_at, noteUpd_dispatched_at]; exact hnone)]
  · intro ta hta hle
    refine ⟨ta, t1, ?_, ?_, hle⟩
    · rw [dispatchUpd_of_some _ _ (by
        rw [deliverUpd_dispatched_at, noteUpd_dispatched_at]; exact hta)]
      rw [deliverUpd_dispatched_at, noteUpd_dispatched_at]
      exact hta
    · rw [dispatchUpd_of_some _ _ (by
        rw [deliverUpd_dispatched_at, noteUpd_dispatched_at]; exact hta)]
      rw [deliverUpd_of_none _ _ (by rw [noteUpd_delivered_at]; exact hdel)]
  · intro hnone
    refine ⟨t2, t1, ?_, ?_, hmono⟩
    · rw [dispatchUpd_of_none _ _ (by
        rw [deliverUpd_dispatched_at, noteUpd_dispatched_at]; exact hnone)]
    · rw [dispatchUpd_of_none _ _ (by
        rw [deliverUpd_dispatched_at, noteUpd_dispatched_at]; exact hnone)]
      show (deliverUpd (noteUpd d notesIn ts) t1).delivered_at = some t1
      rw [deliverUpd_of_none _ _ (by rw [noteUpd_delivered_at]; exact hdel)]

/-- Witness for C7 (amended) at `w7st`: the fresh deliver with clock
reads 0 then 1. -/
theorem c7_deliver_ordering_amended_witness :
    (lookupTable w7st.deliveries 1 = some ⟨1, some 7, none, none, "", ""⟩ ∧
      ((⟨1, some 7, none, none, "", ""⟩ : Delivery).delivery_agent = none ∨
        (⟨1, some 7, none, none, "", ""⟩ : Delivery).delivery_agent = some 7) ∧
      (⟨1, some 7, none, none, "", ""⟩ : Delivery).delivered_at = none ∧
      (0:Int) ≤ 1) ∧
    (∃ st' d', delivery_update_status w7st 1 7 "delivered" "" "" 0 1 =
        Except.ok st' ∧
      lookupTable st'.deliveries 1 = some d' ∧
      d'.delivered_at = some 0 ∧
      (∀ ta, (⟨1, some 7, none, none, "", ""⟩ : Delivery).dispatched_at =
        some ta → d'.dispatched_at = some ta) ∧
      ((⟨1, some 7, none, none, "", ""⟩ : Delivery).dispatched_at = none →
        d'.dispatched_at = some 1) ∧
      (∀ ta, (⟨1, some 7, none, none, "", ""⟩ : Delivery).dispatched_at =
          some ta → ta ≤ 0 →
        ∃ ta2 tb, d'.dispatched_at = some ta2 ∧ d'.delivered_at = some tb ∧
          ta2 ≤ tb) ∧
      ((⟨1, some 7, none, none, "", ""⟩ : Delivery).dispatched_at = none →
        ∃ ta2 tb, d'.dispatched_at = some ta2 ∧ d'.delivered_at = some tb ∧
          tb ≤ ta2)) :=
  ⟨⟨by decide, by decide, by decide, by decide⟩,
    c7_deliver_ordering_amended w7st 1 7 "" "" 0 1
      ⟨1, some 7, none, none, "", ""⟩ (by decide) (by decide) (by decide)
      (by decide)⟩

/-- C8: when at least one active delivery agent exists (and the order has
no delivery yet), `assign_delivery_agent` creates the delivery for an
agent of minimum active load; ties are broken deterministically by the
stable enumeration order of the agent directory — the selected agent is
the first one in that order whose load does not exceed the minimum. -/
theorem c8_least_loaded_selection
    (st : State) (oid did : Nat) (ord : Order)
    (hnone : st.deliveries.find? (fun e => e.2.order == oid) = none)
    (hord : lookupTable st.orders oid = some ord)
    (hne : st.agents ≠ []) :
    ∃ sel, selectAgent st.agents (activeLoad st) = some sel ∧
      sel ∈ st.agents ∧
      (∀ b ∈ st.agents, activeLoad st sel ≤ activeLoad st b) ∧
      st.agents.find? (fun b => decide (activeLoad st b ≤ activeLoad st sel)) =
        some sel ∧
      assign_delivery_agent st oid did =
        { st with deliveries :=
            (did, ⟨oid, some sel, none, none, deliveryLocation st ord, ""⟩) ::
              st.deliveries } := by
  obtain ⟨b, t, hbt⟩ := List.exists_cons_of_ne_nil hne
  have hsel : selectAgent st.agents (activeLoad st) =
      some (minFrom (activeLoad st) b t) := by
    rw [hbt, selectAgent_cons]
  refine ⟨minFrom (activeLoad st) b t, hsel, ?_, ?_, ?_, ?_⟩
  · rw [hbt]
    exact minFrom_mem (activeLoad st) b t
  · intro x hx
    rw [hbt] at hx
    rcases List.mem_cons.mp hx with hx | hx
    · subst hx
      exact minFrom_le_base (activeLoad st) x t
    · exact minFrom_le_mem (activeLoad st) b t x hx
  · rw [hbt]
    exact minFrom_find? (activeLoad st) b t
  · simp [assign_delivery_agent, hnone, hsel, hord]

/-- Scenario 5 state for the C8 witness: agents 1 and 2 are active;
agent 1 carries three undelivered deliveries, agent 2 one; order 30 is
placed and has no delivery yet. -/
def w8st : State :=
  { materials := [(1, w1mat)],
    orders := [(30, ⟨9, 5, 1, 2, 400, OrderStatus.pending⟩)],
    deliveries :=
      [(10, ⟨20, some 1, none, none, "", ""⟩),
       (11, ⟨21, some 1, none, none, "", ""⟩),
       (12, ⟨22, some 1, none, none, "", ""⟩),
       (13, ⟨23, some 2, none, none, "", ""⟩)],
    agents := [1, 2], addresses := [] }

/-- Witness for C8 at `w8st`: agent 1 has active load 3, agent 2 has
active load 1, and the next assignment goes to agent 2. -/
theorem c8_least_loaded_selection_witness :
    (w8st.deliveries.find? (fun e => e.2.order == 30) = none ∧
      lookupTable w8st.orders 30 = some ⟨9, 5, 1, 2, 400, OrderStatus.pending⟩ ∧
      w8st.agents ≠ []) ∧
    (∃ sel, selectAgent w8st.agents (activeLoad w8st) = some sel ∧
      sel ∈ w8st.agents ∧
      (∀ b ∈ w8st.agents, activeLoad w8st sel ≤ activeLoad w8st b) ∧
      w8st.agents.find?
        (fun b => decide (activeLoad w8st b ≤ activeLoad w8st sel)) = some sel ∧
      assign_delivery_agent w8st 30 40 =
        { w8st with deliveries :=
            (40, ⟨30, some sel, none, none, deliveryLocation w8st
              ⟨9, 5, 1, 2, 400, OrderStatus.pending⟩, ""⟩) ::
              w8st.deliveries }) ∧
    activeLoad w8st 1 = 3 ∧ activeLoad w8st 2 = 1 ∧
    (lookupTable (assign_delivery_agent w8st 30 40).deliveries 40).map
      Delivery.delivery_agent = some (some 2) :=
  ⟨⟨by decide, by decide, by decide⟩,
    c8_least_loaded_selection w8st 30 40 ⟨9, 5, 1, 2, 400, OrderStatus.pending⟩
      (by decide) (by decide) (by decide),
    rfl, rfl, rfl⟩

/-- Concrete state for the C9 counterexample: delivery 1 has no assigned
agent (`delivery_agent` is null). -/
def w9st : State :=
  { materials := [(1, w1mat)],
    orders := [(1, ⟨9, 5, 1, 2, 400, OrderStatus.pending⟩)],
    deliveries := [(1, ⟨1, none, none, none, "", ""⟩)],
    agents := [], addresses := [] }

/-- Counterexample to C9: delivery 1 of `w9st` has no assigned agent, so
actor 3 is not "the delivery's assigned agent"; yet the permission check
at views.py line 794 passes (it only fires when `delivery_agent` is
set), the call succeeds instead of returning Forbidden, and it mutates
the delivery (`dispatched_at` becomes 5). -/
theorem c9_counterexample :
    (∃ st', delivery_update_status w9st 1 3 "dispatched" "" "" 5 6 =
      Except.ok st') ∧
    (lookupTable (settle w9st
        (delivery_update_status w9st 1 3 "dispatched" "" "" 5 6)).deliveries 1).map
      Delivery.dispatched_at = some (some 5) :=
  ⟨⟨_, rfl⟩, rfl⟩

/-- C9 (amended): `delivery_update_status` is forbidden (and mutates
nothing) exactly when the delivery has an assigned agent different from
the actor; a delivery whose `delivery_agent` is null can be advanced by
any delivery-role actor. -/
theorem c9_advance_auth_amended
    (st : State) (pk actor : Nat) (d : Delivery)
    (hd : lookupTable st.deliveries pk = some d) :
    (∀ a, d.delivery_agent = some a → a ≠ actor →
      ∀ action notesIn ts t1 t2,
        delivery_update_status st pk actor action notesIn ts t1 t2 =
          Except.error AdvanceResult.forbidden ∧
        settle st (delivery_update_status st pk actor action notesIn ts t1 t2) =
          st) ∧
    (d.delivery_agent = none →
      ∀ notesIn ts t1 t2, ∃ st',
        delivery_update_status st pk actor "dispatched" notesIn ts t1 t2 =
          Except.ok st') := by
  constructor
  · intro a ha hne action notesIn ts t1 t2
    have herr := delivery_update_status_forbidden_eq st pk actor a action notesIn
      ts t1 t2 d hd ha hne
    exact ⟨herr, by rw [herr]; rfl⟩
  · intro hnone notesIn ts t1 t2
    exact ⟨_, by
      rw [delivery_update_status_eq_body st pk actor "dispatched" notesIn ts t1 t2
        d hd (Or.inl hnone)]
      exact advanceBody_dispatched_eq st pk notesIn ts t1 t2 d⟩

/-- Concrete state for the C9 witness: delivery 1 is assigned to agent 7
while actor 3 attempts to advance it. -/
def w9bst : State :=
  { materials := [(1, w1mat)],
    orders := [(1, ⟨9, 5, 1, 2, 400, OrderStatus.pending⟩)],
    deliveries := [(1, ⟨1, some 7, none, none, "", ""⟩)],
    agents := [7], addresses := [] }

/-- Witness for C9 (amended) at `w9bst`: actor 3 is rejected on the
assigned delivery 1. -/
theorem c9_advance_auth_amended_witness :
    (lookupTable w9bst.deliveries 1 = some ⟨1, some 7, none, none, "", ""⟩) ∧
    ((∀ a, (⟨1, some 7, none, none, "", ""⟩ : Delivery).delivery_agent = some a →
      a ≠ 3 →
      ∀ action notesIn ts t1 t2,
        delivery_update_status w9bst 1 3 action notesIn ts t1 t2 =
          Except.error AdvanceResult.forbidden ∧
        settle w9bst (delivery_update_status w9bst 1 3 action notesIn ts t1 t2) =
          w9bst) ∧
    ((⟨1, some 7, none, none, "", ""⟩ : Delivery).delivery_agent = none →
      ∀ notesIn ts t1 t2, ∃ st',
        delivery_update_status w9bst 1 3 "dispatched" notesIn ts t1 t2 =
          Except.ok st')) :=
  ⟨by decide,
    c9_advance_auth_amended w9bst 1 3 ⟨1, some 7, none, none, "", ""⟩ (by decide)⟩

/-- C10: cancelling an order mutates only that order's status and its
material's stock level: the deliveries table (and the balancer inputs)
are untouched, every agent's active load is unchanged — so the delivery
of a cancelled order, whose `delivered_at` stays unset, still counts
toward its agent's load in later least-load assignments — and every
other order and material row reads back unchanged. -/
theorem c10_cancel_frame (st : State) (orderId actor : Nat) (st' : State)
    (h : cancel_order st orderId actor = Except.ok st') :
    st'.deliveries = st.deliveries ∧ st'.agents = st.agents ∧
    st'.addresses = st.addresses ∧
    (∀ ag, activeLoad st' ag = activeLoad st ag) ∧
    ∃ ord m, lookupTable st.orders orderId = some ord ∧
      lookupTable st.materials ord.material = some m ∧
      lookupTable st'.orders orderId =
        some { ord with status := OrderStatus.cancelled } ∧
      (∀ k, k ≠ orderId → lookupTable st'.orders k = lookupTable st.orders k) ∧
      lookupTable st'.materials ord.material =
        some { m with stock_level := m.stock_level + ord.quantity } ∧
      (∀ k, k ≠ ord.material →
        lookupTable st'.materials k = lookupTable st.materials k) := by
  rcases cancel_order_ok_inv h with ⟨ord, m, hord, heng, hstat, hm, hst'⟩
  subst hst'
  refine ⟨rfl, rfl, rfl, fun ag => rfl, ord, m, hord, hm, ?_, ?_, ?_, ?_⟩
  · show lookupTable (updateTable st.orders _ _) _ = _
    rw [lookupTable_updateTable_self, hord]
    rfl
  · intro k hk
    show lookupTable (updateTable st.orders _ _) _ = _
    exact lookupTable_updateTable_ne st.orders _ hk
  · show lookupTable (updateTable st.materials _ _) _ = _
    rw [lookupTable_updateTable_self, hm]
    rfl
  · intro k hk
    show lookupTable (updateTable st.materials _ _) _ = _
    exact lookupTable_updateTable_ne st.materials _ hk

/-- Concrete state for the C10 witness: pending order 1 (engineer 9)
with delivery 1 assigned to agent 7, not delivered. -/
def w10st : State :=
  { materials := [(1, w1mat)],
    orders := [(1, ⟨9, 5, 1, 2, 400, OrderStatus.pending⟩)],
    deliveries := [(1, ⟨1, some 7, none, none, "", ""⟩)],
    agents := [7], addresses := [] }

/-- Witness for C10 at `w10st`: engineer 9 cancels order 1; the delivery
table and agent 7's active load are untouched. -/
theorem c10_cancel_frame_witness :
    (cancel_order w10st 1 9 = Except.ok (settle w10st (cancel_order w10st 1 9))) ∧
    ((settle w10st (cancel_order w10st 1 9)).deliveries = w10st.deliveries ∧
     (settle w10st (cancel_order w10st 1 9)).agents = w10st.agents ∧
     (settle w10st (cancel_order w10st 1 9)).addresses = w10st.addresses ∧
     (∀ ag, activeLoad (settle w10st (cancel_order w10st 1 9)) ag =
       activeLoad w10st ag) ∧
     ∃ ord m, lookupTable w10st.orders 1 = some ord ∧
       lookupTable w10st.materials ord.material = some m ∧
       lookupTable (settle w10st (cancel_order w10st 1 9)).orders 1 =
         some { ord with status := OrderStatus.cancelled } ∧
       (∀ k, k ≠ 1 → lookupTable (settle w10st (cancel_order w10st 1 9)).orders k =
         lookupTable w10st.orders k) ∧
       lookupTable (settle w10st (cancel_order w10st 1 9)).materials ord.material =
         some { m with stock_level := m.stock_level + ord.quantity } ∧
       (∀ k, k ≠ ord.material →
         lookupTable (settle w10st (cancel_order w10st 1 9)).materials k =
           lookupTable w10st.materials k)) :=
  ⟨rfl,
    c10_cancel_frame w10st 1 9 (settle w10st (cancel_order w10st 1 9)) rfl⟩

end EngineeringPlatform
